import Mathlib

/-!
Shallow embedding of `pandemic-simulation.py` (the pandemic simulation core).

Modelling conventions:
* Python `City` objects reference each other; equality and hashing are by
  `name` alone (`__eq__`/`__hash__`), so the graph is modelled as a list of
  cities in dict insertion order, with neighbour sets stored as lists of city
  names (insertion-ordered, duplicate-free — Python `set` iteration order is
  unspecified; every claim proved below is either independent of that order or
  existential over inputs).  The `lat`/`long` coordinates are presentation-only
  and are omitted.
* All counters are Python ints that stay non-negative in every reachable
  state; they are modelled as `Nat`.  Where a theorem needs a subtraction to be
  exact it carries the corresponding hypothesis (e.g. rates bounded by 1).
* The float-valued simulation constants (`MORTALITY_RATE`, `INFECTION_RATE`,
  `MOVEMENT_PROPORTION`, `AVERAGE_DURATION`) are modelled as exact rationals
  `num/den`, and Python's `int(x)` on the non-negative products/quotients the
  code builds is modelled as `Nat` floor division.  For every concrete
  instance evaluated below the double-precision computation agrees with the
  exact rational one.
* `set.remove` raises `KeyError` when the element is absent; the fallible
  method `City.remove_neighbour` therefore returns an `Option`.
-/

/-- The per-scenario simulation constants of the Python module
(`MORTALITY_RATE = mortalityNum/mortalityDen`, `INFECTION_RATE =
infectionNum/infectionDen`, `MOVEMENT_PROPORTION = movementNum/movementDen`,
`AVERAGE_DURATION = durationNum/durationDen`, `TREATMENT_MOVEMENT`). -/
structure Params where
  mortalityNum : Nat
  mortalityDen : Nat
  infectionNum : Nat
  infectionDen : Nat
  movementNum : Nat
  movementDen : Nat
  durationNum : Nat
  durationDen : Nat
  treatmentMovement : Bool
deriving DecidableEq

/-- `City.__init__` (lines 80-100): the population-centre record.  Neighbours
are stored as city names because `City.__eq__`/`__hash__` compare names. -/
structure City where
  name : String
  infected : Nat
  incoming_infected : Nat
  survivors : Nat
  cured : Nat
  dead : Nat
  initial_population : Nat
  healthy_population : Nat
  neighbours : List String
  ever_infected : Bool
deriving DecidableEq

/-- Fresh city as built by `get_city_data`: all counters zero,
`healthy_population = initial_population`, given neighbour list. -/
def mkCity (name : String) (population : Nat) (nbrs : List String) : City :=
  { name := name, infected := 0, incoming_infected := 0, survivors := 0,
    cured := 0, dead := 0, initial_population := population,
    healthy_population := population, neighbours := nbrs, ever_infected := false }

/-- Update every city named `x` in the world (with unique names, exactly the
one city `x`) by `f`; other cities are untouched. -/
def updAt (w : List City) (x : String) (f : City → City) : List City :=
  w.map fun c => if c.name = x then f c else c

/-- Dictionary lookup `cities[x]` / attribute access on a `City` reference. -/
def cityAt? (w : List City) (x : String) : Option City :=
  w.find? fun c => c.name = x

/-- The list of city names, in dict insertion order. -/
def namesOf (w : List City) : List String := w.map City.name

/-- Neighbour list of the city named `x` (`City.get_neighbours`, lines 230-231,
which returns the set as a list). -/
def getNeighboursAt (w : List City) (x : String) : List String :=
  ((cityAt? w x).map City.neighbours).getD []

/-- `City.add_neighbour` (lines 118-120): `self.neighbours.add(neighbour)`.
Adding an element already in the set is a no-op. -/
def City.add_neighbour (c : City) (n : String) : City :=
  if n ∈ c.neighbours then c else { c with neighbours := c.neighbours ++ [n] }

/-- `City.remove_neighbour` (lines 122-124): `self.neighbours.remove(neighbour)`.
Python's `set.remove` raises `KeyError` when the element is absent, modelled
as `none`. -/
def City.remove_neighbour (c : City) (n : String) : Option City :=
  if n ∈ c.neighbours then some { c with neighbours := c.neighbours.erase n }
  else none

/-- World-level one-sided `add_neighbour` call on the city named `x`. -/
def addNbrAt (w : List City) (x n : String) : List City :=
  updAt w x fun c => City.add_neighbour c n

/-- World-level one-sided `remove_neighbour` call on the city named `x`.  At
every call site below the element is present in the set (each removal is
paired with the re-add that restores it before the next iteration), so
`List.erase` coincides with Python's `set.remove`. -/
def removeNbrAt (w : List City) (x n : String) : List City :=
  updAt w x fun c => { c with neighbours := c.neighbours.erase n }

/-- `City.first_case` (lines 127-134): returns `True` exactly when the city
has never been infected before and is infected now, latching `ever_infected`.
The pair is (returned bool, mutated city). -/
def City.first_case (c : City) : Bool × City :=
  if c.ever_infected = false ∧ 0 < c.infected then
    (true, { c with ever_infected := true })
  else (false, c)

/-- `City.start_of_turn` (lines 151-154): merge the transit buffer. -/
def City.start_of_turn (c : City) : City :=
  { c with infected := c.infected + c.incoming_infected, incoming_infected := 0 }

/-- The `cases_resolved` computation of `City.change_in_infected_numbers`
(lines 186-191); `int(self.infected // AVERAGE_DURATION)` is the exact floor
`infected * durationDen / durationNum`. -/
def cases_resolved (p : Params) (inf : Nat) : Nat :=
  if 5 < inf then max (inf * p.durationDen / p.durationNum) 5
  else if 0 < inf then inf
  else 0

/-- `City.change_in_infected_numbers` (lines 183-196): the resolution phase.
`cases_die = int(cases_resolved * MORTALITY_RATE)`. -/
def City.change_in_infected_numbers (p : Params) (c : City) : City :=
  let resolved := cases_resolved p c.infected
  let die := resolved * p.mortalityNum / p.mortalityDen
  { c with infected := c.infected - resolved,
           survivors := c.survivors + (resolved - die),
           dead := c.dead + die }

/-- First half of `City.spread_infection` (lines 199-210): the contact branch.
`hc = int(r * infected * INFECTION_RATE)` with `r = healthy / denom` is the
exact floor `healthy * infected * infectionNum / (denom * infectionDen)`. -/
def spread_core (p : Params) (c : City) : City :=
  let denom := c.healthy_population + c.survivors + c.cured
  if 0 < denom then
    let hc := c.healthy_population * c.infected * p.infectionNum /
      (denom * p.infectionDen)
    if c.healthy_population < hc then
      { c with infected := c.infected + c.healthy_population,
               healthy_population := 0 }
    else if 0 < c.infected then
      { c with healthy_population := c.healthy_population - hc,
               infected := c.infected + hc }
    else c
  else c

/-- Second half of `City.spread_infection` (lines 212-215): outbreak
extinction once fewer than 10 cases remain with no healthy hosts. -/
def spread_ext (p : Params) (c : City) : City :=
  if c.infected < 10 ∧ c.healthy_population = 0 then
    let die := c.infected * p.mortalityNum / p.mortalityDen
    { c with dead := c.dead + die,
             survivors := c.survivors + (c.infected - die),
             infected := 0 }
  else c

/-- `City.spread_infection` (lines 198-215): contact branch then extinction
check, in program order. -/
def City.spread_infection (p : Params) (c : City) : City :=
  spread_ext p (spread_core p c)

/-- `City.move_infected` (lines 173-181): the movement phase.  For each
neighbour, `cases_per_neighbour` is added to that neighbour's transit buffer
and subtracted from this city's `infected`, in loop order.
`cases_moving = int(infected * MOVEMENT_PROPORTION)`. -/
def City.move_infected (p : Params) (w : List City) (x : String) : List City :=
  match cityAt? w x with
  | none => w
  | some c =>
    if c.neighbours.length = 0 then w
    else
      let cases_moving := c.infected * p.movementNum / p.movementDen
      let cases_per_neighbour := cases_moving / c.neighbours.length
      c.neighbours.foldl
        (fun w2 nbr =>
          updAt
            (updAt w2 nbr fun cn =>
              { cn with incoming_infected := cn.incoming_infected + cases_per_neighbour })
            x fun cs => { cs with infected := cs.infected - cases_per_neighbour })
        w

/-- `City.run_turn` (lines 156-170): movement, then resolution, then spread,
on the city named `x`. -/
def City.run_turn (p : Params) (w : List City) (x : String) : List City :=
  updAt (updAt (City.move_infected p w x) x (City.change_in_infected_numbers p))
    x (City.spread_infection p)

/-- `City.reset` (lines 221-228). -/
def City.reset (c : City) : City :=
  { c with infected := 0, incoming_infected := 0, survivors := 0, cured := 0,
           dead := 0, healthy_population := c.initial_population,
           ever_infected := false }

/-- `TreatmentCentre.__init__` (lines 240-249).  The unit's location is the
name of the city it sits on (`City` identity is its name). -/
structure TreatmentCentre where
  treatment : Nat
  treatment_remaining : Nat
  city : String
deriving DecidableEq

/-- `TreatmentCentre.find_most_affected_city` (lines 251-260): the current
city, or the neighbour with strictly more infected (ties keep the earlier
candidate, hence the current city). -/
def TreatmentCentre.find_most_affected_city (w : List City) (t : TreatmentCentre) :
    String :=
  match cityAt? w t.city with
  | none => t.city
  | some c =>
    (c.neighbours.foldl
      (fun (acc : String × Nat) n =>
        match cityAt? w n with
        | some nb => if acc.2 < nb.infected then (nb.name, nb.infected) else acc
        | none => acc)
      (c.name, c.infected)).1

/-- `TreatmentCentre.move` (lines 262-273): relocate when a strictly more
affected city exists (the `!=` comparison is by name). -/
def TreatmentCentre.move (w : List City) (t : TreatmentCentre) : TreatmentCentre :=
  let m := TreatmentCentre.find_most_affected_city w t
  if t.city ≠ m then { t with city := m } else t

/-- `TreatmentCentre.run_turn` (lines 275-290): optionally move, then cure at
the current city: if `infected <= treatment_remaining` cure everyone, else
cure `treatment_remaining` many.  Returns the updated world and unit. -/
def TreatmentCentre.run_turn (p : Params) (w : List City) (t : TreatmentCentre) :
    List City × TreatmentCentre :=
  let t1 := if p.treatmentMovement then TreatmentCentre.move w t else t
  match cityAt? w t1.city with
  | none => (w, t1)
  | some c =>
    if c.infected ≤ t1.treatment_remaining then
      (updAt w t1.city fun cc =>
        { cc with cured := cc.cured + cc.infected, infected := 0 },
       { t1 with treatment_remaining := t1.treatment_remaining - c.infected })
    else
      (updAt w t1.city fun cc =>
        { cc with cured := cc.cured + t1.treatment_remaining,
                  infected := cc.infected - t1.treatment_remaining },
       { t1 with treatment_remaining := 0 })

/-- `Engine.__init__` (lines 299-311).  `loggerPresent` models whether
`self.logger` is `None`; the only state effect of logging is the
`ever_infected` latch fired by `log_out_city_info` via `City.first_case`. -/
structure Engine where
  turn_number : Nat
  cities : List City
  treatments : List TreatmentCentre
  loggerPresent : Bool
  healthy_population : List Nat
  infected : List Nat
  survivors : List Nat
  deaths : List Nat
  cured : List Nat
deriving DecidableEq

/-- Sum of a counter over all cities (the `sum([...])` aggregations of
`Engine.run_turn`, lines 357-361). -/
def sumBy (f : City → Nat) (w : List City) : Nat := (w.map f).sum

/-- The state effect of `Engine.log_out_city_info` (lines 313-325) on a city:
`City.first_case` latches `ever_infected`; `infection_free` and
`all_infected` are pure queries. -/
def log_latch (c : City) : City := (City.first_case c).2

/-- One city's slice of the engine's second loop (lines 348-350):
`city.run_turn(...)` followed by `log_out_city_info(city)` when a logger is
attached. -/
def cityTurnAt (p : Params) (loggerPresent : Bool) (w : List City) (x : String) :
    List City :=
  let w3 := City.run_turn p w x
  if loggerPresent then updAt w3 x log_latch else w3

/-- The engine's third loop (lines 353-354): run each treatment unit in
order, threading the world through. -/
def runTreatments (p : Params) : List TreatmentCentre → List City →
    List City × List TreatmentCentre
  | [], w => (w, [])
  | t :: ts, w =>
    let r := TreatmentCentre.run_turn p w t
    let rest := runTreatments p ts r.1
    (rest.1, r.2 :: rest.2)

/-- `Engine.run_turn` (lines 336-364): bump the turn counter, run
`start_of_turn` on every city, then each city's turn (with the logging
latch), then every treatment unit, then append the five aggregate sums. -/
def Engine.run_turn (p : Params) (e : Engine) : Engine :=
  let w1 := e.cities.map City.start_of_turn
  let w2 := (namesOf w1).foldl (cityTurnAt p e.loggerPresent) w1
  let tr := runTreatments p e.treatments w2
  { e with
    turn_number := e.turn_number + 1,
    cities := tr.1,
    treatments := tr.2,
    infected := e.infected ++ [sumBy (fun c => c.infected) tr.1],
    healthy_population :=
      e.healthy_population ++ [sumBy (fun c => c.healthy_population) tr.1],
    survivors := e.survivors ++ [sumBy (fun c => c.survivors) tr.1],
    deaths := e.deaths ++ [sumBy (fun c => c.dead) tr.1],
    cured := e.cured ++ [sumBy (fun c => c.cured) tr.1] }

/-- `SIMULATION_ITERATIONS` (line 546). -/
def SIMULATION_ITERATIONS : Nat := 20

/-- `reset_cities` (lines 558-560). -/
def reset_cities (w : List City) : List City := w.map City.reset

/-- The seeding loop of `set_initial_state` (lines 462-463):
`engine.cities[city].incoming_infected = cases` for each seeded pair.
Scenario 4 installs no treatment units, so only the seeding loop matters for
`find_best_config`. -/
def set_initial_state (seeds : List (String × Nat)) (w : List City) : List City :=
  seeds.foldl
    (fun wz sc => updAt wz sc.1 fun c => { c with incoming_infected := sc.2 }) w

/-- `run_simulations_get_deaths` (lines 548-556): reset the cities, build a
fresh engine (no treatment units, no logger), seed, run
`SIMULATION_ITERATIONS` turns of the given scenario, and return
`deaths[-1]` together with the (mutated, shared) cities. -/
def run_simulations_get_deaths (p : Params) (seeds : List (String × Nat))
    (w : List City) : Nat × List City :=
  let e0 : Engine :=
    { turn_number := 0, cities := set_initial_state seeds (reset_cities w),
      treatments := [], loggerPresent := false, healthy_population := [],
      infected := [], survivors := [], deaths := [], cured := [] }
  let e := (Engine.run_turn p)^[SIMULATION_ITERATIONS] e0
  (e.deaths.getLast?.getD 0, e.cities)

/-- Python dict insertion with `City`-keys hashed and compared by name
(lines 102-112): overwriting an existing key keeps its position and replaces
the value. -/
def dictInsert (l : List (String × String)) (k v : String) :
    List (String × String) :=
  if k ∈ l.map Prod.fst then l.map fun q => if q.1 = k then (k, v) else q
  else l ++ [(k, v)]

/-- The dict literal of line 582: keys can collapse because `City` equality
is by name. -/
def tripleConfig (x1 n1 x2 n2 x3 n3 : String) : List (String × String) :=
  dictInsert (dictInsert (dictInsert [] x1 n1) x2 n2) x3 n3

/-- Comparison against `minimum_deaths`, which starts at `float('inf')`
(line 563), modelled as `none`. -/
def ltOptMin (d : Nat) : Option Nat → Bool
  | none => true
  | some m => d < m

/-- The mutable state of `find_best_config`: the shared cities and the best
trial found so far (lines 562-564). -/
structure SearchState where
  cities : List City
  minimum_deaths : Option Nat
  minimum_deaths_config : List (String × String)

/-- Innermost loop of `find_best_config` (lines 576-589): for each third
neighbour, remove the connection, run the trial simulation, update the best
configuration on a strictly smaller death toll, restore the connection. -/
def fbc3 (p : Params) (seeds : List (String × Nat)) (x1 n1 x2 n2 x3 : String) :
    List String → SearchState → SearchState
  | [], st => st
  | n3 :: rest, st =>
    let r := run_simulations_get_deaths p seeds (removeNbrAt st.cities x3 n3)
    let st1 : SearchState :=
      if ltOptMin r.1 st.minimum_deaths then
        ⟨r.2, some r.1, tripleConfig x1 n1 x2 n2 x3 n3⟩
      else ⟨r.2, st.minimum_deaths, st.minimum_deaths_config⟩
    fbc3 p seeds x1 n1 x2 n2 x3 rest
      ⟨addNbrAt st1.cities x3 n3, st1.minimum_deaths, st1.minimum_deaths_config⟩

/-- Third-level city loop (line 575): iterate `cities.values()`, snapshotting
each city's current neighbour list. -/
def fbc3cities (p : Params) (seeds : List (String × Nat)) (x1 n1 x2 n2 : String) :
    List String → SearchState → SearchState
  | [], st => st
  | x3 :: rest, st =>
    fbc3cities p seeds x1 n1 x2 n2 rest
      (fbc3 p seeds x1 n1 x2 n2 x3 (getNeighboursAt st.cities x3) st)

/-- Second-level neighbour loop (lines 572-590). -/
def fbc2 (p : Params) (seeds : List (String × Nat)) (x1 n1 x2 : String)
    (allNames : List String) : List String → SearchState → SearchState
  | [], st => st
  | n2 :: rest, st =>
    let st1 := fbc3cities p seeds x1 n1 x2 n2 allNames
      ⟨removeNbrAt st.cities x2 n2, st.minimum_deaths, st.minimum_deaths_config⟩
    fbc2 p seeds x1 n1 x2 allNames rest
      ⟨addNbrAt st1.cities x2 n2, st1.minimum_deaths, st1.minimum_deaths_config⟩

/-- Second-level city loop (line 571). -/
def fbc2cities (p : Params) (seeds : List (String × Nat)) (x1 n1 : String)
    (allNames : List String) : List String → SearchState → SearchState
  | [], st => st
  | x2 :: rest, st =>
    fbc2cities p seeds x1 n1 allNames rest
      (fbc2 p seeds x1 n1 x2 allNames (getNeighboursAt st.cities x2) st)

/-- First-level neighbour loop (lines 568-591). -/
def fbc1 (p : Params) (seeds : List (String × Nat)) (x1 : String)
    (allNames : List String) : List String → SearchState → SearchState
  | [], st => st
  | n1 :: rest, st =>
    let st1 := fbc2cities p seeds x1 n1 allNames allNames
      ⟨removeNbrAt st.cities x1 n1, st.minimum_deaths, st.minimum_deaths_config⟩
    fbc1 p seeds x1 allNames rest
      ⟨addNbrAt st1.cities x1 n1, st1.minimum_deaths, st1.minimum_deaths_config⟩

/-- First-level city loop (line 567). -/
def fbc1cities (p : Params) (seeds : List (String × Nat))
    (allNames : List String) : List String → SearchState → SearchState
  | [], st => st
  | x1 :: rest, st =>
    fbc1cities p seeds allNames rest
      (fbc1 p seeds x1 allNames (getNeighboursAt st.cities x1) st)

/-- `find_best_config` (lines 562-593): the exhaustive 3-removal search.
When it runs in the program, `SIMULATION_NUMBER = 4`, so the trial scenario
is scenario 4's parameters and seeding. -/
def find_best_config (p : Params) (seeds : List (String × Nat))
    (w : List City) : SearchState :=
  fbc1cities p seeds (namesOf w) (namesOf w) ⟨w, none, []⟩

/-- Per-city totals used by the invariants: everyone the per-city counters
can see, including the transit buffer. -/
def totalCity (c : City) : Nat :=
  c.healthy_population + c.infected + c.incoming_infected + c.survivors +
    c.cured + c.dead

/-- The per-city sum the specification's conservation property names (it
omits the transit buffer). -/
def fiveCounterSum (c : City) : Nat :=
  c.healthy_population + c.infected + c.survivors + c.cured + c.dead

/-- Counters untouched by the movement phase. -/
def restCity (c : City) : Nat :=
  c.healthy_population + c.survivors + c.cured + c.dead

/-- Infected people, whether settled or in transit. -/
def infIncCity (c : City) : Nat := c.infected + c.incoming_infected

/-- Total infected across the graph, counting the transit buffers. -/
def totalInfectedInTransit (w : List City) : Nat := sumBy infIncCity w

/-- Global population total, counting the transit buffers. -/
def totalPopulation (w : List City) : Nat := sumBy totalCity w

/-- A projection of a named city's state, defaulting to `0` when absent. -/
def fieldAt (w : List City) (x : String) (f : City → Nat) : Nat :=
  ((cityAt? w x).map f).getD 0

/-- Well-formedness every world built by `get_city_data` has: city names are
unique (they are dict keys) and every neighbour reference points at a city of
the graph (neighbour sets hold references to existing `City` objects). -/
def WF (w : List City) : Prop :=
  (namesOf w).Nodup ∧ ∀ c ∈ w, ∀ n ∈ c.neighbours, n ∈ namesOf w

/-- Symmetry of the neighbour relation among the cities present in the
world. -/
def SymmetricGraph (w : List City) : Prop :=
  ∀ c ∈ w, ∀ n ∈ c.neighbours, ∀ c' ∈ w, c'.name = n → c.name ∈ c'.neighbours

/-- The name/neighbour skeleton of the world; the turn dynamics never touch
it. -/
def skeleton (w : List City) : List (String × List String) :=
  w.map fun c => (c.name, c.neighbours)

/-- Repeated calls of `City.first_case` along an externally imposed sequence
of `infected` observations: before each call the city's `infected` counter is
set to the next observation, then `first_case` is called and its result
collected. -/
def firstCaseRun (c : City) : List Nat → List Bool
  | [] => []
  | o :: rest =>
    let r := City.first_case { c with infected := o }
    r.1 :: firstCaseRun r.2 rest

/-- Scenario used for the end-to-end example of the specification
(`INFECTION_RATE = 0`, `MOVEMENT_PROPORTION = 0`, `AVERAGE_DURATION = 4`,
`MORTALITY_RATE = 0.5`, no treatment movement). -/
def exampleParams : Params :=
  { mortalityNum := 1, mortalityDen := 2, infectionNum := 0, infectionDen := 1,
    movementNum := 0, movementDen := 1, durationNum := 4, durationDen := 1,
    treatmentMovement := false }

/-- Center A of the end-to-end example: population 1000, 100 infected seeded
through the transit buffer exactly as `set_initial_state` seeds cases. -/
def exampleA : City := { mkCity "A" 1000 ["B"] with incoming_infected := 100 }

/-- Center B of the end-to-end example. -/
def exampleB : City := mkCity "B" 1000 ["A"]

/-- The 2-center engine of the end-to-end example, before turn 1. -/
def exampleEngine : Engine :=
  { turn_number := 0, cities := [exampleA, exampleB], treatments := [],
    loggerPresent := true, healthy_population := [], infected := [],
    survivors := [], deaths := [], cured := [] }

/-- The end-to-end example after exactly one engine turn. -/
def exampleAfter : Engine := Engine.run_turn exampleParams exampleEngine

/-- Scenario 0 rates with movement (`MORTALITY_RATE = 0.5` variant used for
the conservation counterexample): `MOVEMENT_PROPORTION = 0.1`,
`AVERAGE_DURATION = 4`, `INFECTION_RATE = 0`. -/
def moveParams : Params :=
  { mortalityNum := 1, mortalityDen := 2, infectionNum := 0, infectionDen := 1,
    movementNum := 1, movementDen := 10, durationNum := 4, durationDen := 1,
    treatmentMovement := false }

/-- A 2-center world where center A already carries 100 infected (and 900
healthy, so its five counters sum to its initial population of 1000). -/
def moveA : City :=
  { mkCity "A" 1000 ["B"] with infected := 100, healthy_population := 900 }

/-- The neighbour of `moveA`. -/
def moveB : City := mkCity "B" 1000 ["A"]

/-- Engine for the conservation counterexample. -/
def moveEngine : Engine :=
  { turn_number := 0, cities := [moveA, moveB], treatments := [],
    loggerPresent := false, healthy_population := [], infected := [],
    survivors := [], deaths := [], cured := [] }

/-- The conservation counterexample world after one engine turn. -/
def moveAfter : Engine := Engine.run_turn moveParams moveEngine

/-- Scenario 4 parameters (`get_initial_parameters`, line 429):
`MORTALITY_RATE = 0.3`, `INFECTION_RATE = 1.0`, `MOVEMENT_PROPORTION = 0.05`,
`AVERAGE_DURATION = 4.0`, stationary treatment. -/
def scenario4Params : Params :=
  { mortalityNum := 3, mortalityDen := 10, infectionNum := 1, infectionDen := 1,
    movementNum := 1, movementDen := 20, durationNum := 4, durationDen := 1,
    treatmentMovement := false }

/-- Scenario 4 seeding (`set_initial_state`, line 453). -/
def scenario4Seeds : List (String × Nat) :=
  [("Rockhampton", 1000), ("Brisbane", 10000), ("Gold Coast", 1000)]

/-- Input graph for the search claim: hub `S` connected to leaves `T` and
`U`, and the three seeded cities isolated, so every trial of the search
produces the same death toll and the first trial wins. -/
def searchWorld : List City :=
  [mkCity "S" 0 ["T", "U"], mkCity "T" 0 ["S"], mkCity "U" 0 ["S"],
   mkCity "Rockhampton" 0 [], mkCity "Brisbane" 0 [], mkCity "Gold Coast" 0 []]

/-- The result of `find_best_config` on `searchWorld` under scenario 4. -/
def searchResult : SearchState :=
  find_best_config scenario4Params scenario4Seeds searchWorld

/-- Concrete city used in the neighbour-operation claims. -/
def pairA : City := mkCity "A" 10 ["B"]

/-- Concrete city used in the neighbour-operation claims. -/
def pairB : City := mkCity "B" 10 ["A"]

/-- `pairA` after the one-sided `remove_neighbour("B")` call. -/
def pairA' : City := { pairA with neighbours := [] }

/-- Concrete symmetric world for the symmetry witness. -/
def pairWorld : List City := [pairA, pairB]

/-- Concrete world for the treatment-unit witness: one city with 5 infected. -/
def treatCity : City := { mkCity "A" 100 [] with infected := 5, healthy_population := 95 }

/-- Concrete world for the treatment-unit witness. -/
def treatWorld : List City := [treatCity]

/-- Concrete treatment unit with capacity 3 sitting at `A`. -/
def treatUnit : TreatmentCentre := { treatment := 0, treatment_remaining := 3, city := "A" }

instance (w : List City) : Decidable (WF w) := by
  unfold WF
  infer_instance

instance (w : List City) : Decidable (SymmetricGraph w) := by
  unfold SymmetricGraph
  infer_instance

theorem sumBy_map_pres (f : City → Nat) (g : City → City)
    (h : ∀ c, f (g c) = f c) (w : List City) :
    sumBy f (w.map g) = sumBy f w := by
  induction w with
  | nil => rfl
  | cons c w ih =>
    simp only [sumBy, List.map_cons, List.sum_cons] at ih ⊢
    rw [h c, ih]

theorem updAt_congr_id (w : List City) (x : String) (g : City → City)
    (h : ∀ c, g c = c) : updAt w x g = w := by
  induction w with
  | nil => rfl
  | cons c w ih =>
    simp only [updAt, List.map_cons] at ih ⊢
    rw [ih]
    by_cases hc : c.name = x
    · rw [if_pos hc, h c]
    · rw [if_neg hc]

theorem updAt_id_of_not_mem (w : List City) (x : String) (g : City → City)
    (h : x ∉ namesOf w) : updAt w x g = w := by
  induction w with
  | nil => rfl
  | cons c w ih =>
    simp only [namesOf, List.map_cons, List.mem_cons, not_or] at h
    show (if c.name = x then g c else c) :: updAt w x g = c :: w
    rw [if_neg (fun hc => h.1 hc.symm), ih h.2]

theorem sumBy_updAt_pres (f : City → Nat) (g : City → City) (w : List City)
    (x : String) (h : ∀ c, f (g c) = f c) :
    sumBy f (updAt w x g) = sumBy f w := by
  induction w with
  | nil => rfl
  | cons c w ih =>
    simp only [updAt, sumBy, List.map_cons, List.sum_cons] at ih ⊢
    rw [ih]
    by_cases hc : c.name = x
    · rw [if_pos hc, h c]
    · rw [if_neg hc]

theorem sumBy_updAt_add (f : City → Nat) (g : City → City) (w : List City)
    (x : String) (k : Nat) (h : ∀ c, f (g c) = f c + k)
    (hnd : (namesOf w).Nodup) (hx : x ∈ namesOf w) :
    sumBy f (updAt w x g) = sumBy f w + k := by
  induction w with
  | nil => cases hx
  | cons c w ih =>
    simp only [namesOf, List.map_cons, List.nodup_cons] at hnd
    simp only [namesOf, List.map_cons, List.mem_cons] at hx
    simp only [updAt, sumBy, List.map_cons, List.sum_cons] at ih ⊢
    by_cases hc : c.name = x
    · rw [if_pos hc, h c]
      have : updAt w x g = w := updAt_id_of_not_mem w x g (by rw [← hc]; exact hnd.1)
      simp only [updAt] at this
      rw [this]
      omega
    · rw [if_neg hc]
      have hx' : x ∈ namesOf w := by
        rcases hx with hx | hx
        · exact absurd hx.symm hc
        · exact hx
      rw [ih hnd.2 hx']
      omega

theorem cityAt?_mem {w : List City} {x : String} {c : City}
    (h : cityAt? w x = some c) : c ∈ w ∧ c.name = x := by
  refine ⟨List.mem_of_find?_eq_some h, ?_⟩
  have := List.find?_some h
  simpa using this

theorem cityAt?_updAt (g : City → City) (hg : ∀ c, (g c).name = c.name)
    (w : List City) (x y : String) :
    cityAt? (updAt w y g) x =
      (cityAt? w x).map (fun c => if c.name = y then g c else c) := by
  induction w with
  | nil => rfl
  | cons c w ih =>
    simp only [updAt, List.map_cons, cityAt?] at ih ⊢
    by_cases hc : c.name = x
    · have hh : ((if c.name = y then g c else c).name = x) := by
        by_cases hy : c.name = y
        · rw [if_pos hy, hg]; exact hc
        · rw [if_neg hy]; exact hc
      rw [List.find?_cons_of_pos _ (by simpa using hh),
        List.find?_cons_of_pos _ (by simpa using hc)]
      simp
    · have hh : ¬ ((if c.name = y then g c else c).name = x) := by
        by_cases hy : c.name = y
        · rw [if_pos hy, hg]; exact hc
        · rw [if_neg hy]; exact hc
      rw [List.find?_cons_of_neg _ (by simpa using hh),
        List.find?_cons_of_neg _ (by simpa using hc)]
      exact ih

theorem sumBy_updAt_found_cancel (f : City → Nat) (g : City → City)
    (w : List City) (x : String) (k : Nat) (c : City)
    (hnd : (namesOf w).Nodup) (hc : cityAt? w x = some c)
    (h : f (g c) + k = f c) :
    sumBy f (updAt w x g) + k = sumBy f w := by
  induction w with
  | nil => simp [cityAt?] at hc
  | cons d w ih =>
    simp only [namesOf, List.map_cons, List.nodup_cons] at hnd
    simp only [updAt, sumBy, List.map_cons, List.sum_cons] at ih ⊢
    by_cases hd : d.name = x
    · rw [if_pos hd]
      have hdc : d = c := by
        simp only [cityAt?] at hc
        rw [List.find?_cons_of_pos _ (by simpa using hd)] at hc
        exact Option.some.inj hc
      subst hdc
      have : updAt w x g = w := updAt_id_of_not_mem w x g (by rw [← hd]; exact hnd.1)
      simp only [updAt] at this
      rw [this]
      omega
    · rw [if_neg hd]
      have hc' : cityAt? w x = some c := by
        simp only [cityAt?] at hc ⊢
        rwa [List.find?_cons_of_neg _ (by simpa using hd)] at hc
      have := ih hnd.2 hc'
      omega

theorem updAt_found_id (w : List City) (x : String) (g : City → City)
    (c : City) (hnd : (namesOf w).Nodup) (hc : cityAt? w x = some c)
    (h : g c = c) : updAt w x g = w := by
  induction w with
  | nil => rfl
  | cons d w ih =>
    simp only [namesOf, List.map_cons, List.nodup_cons] at hnd
    simp only [updAt, List.map_cons] at ih ⊢
    by_cases hd : d.name = x
    · have hdc : d = c := by
        simp only [cityAt?] at hc
        rw [List.find?_cons_of_pos _ (by simpa using hd)] at hc
        exact Option.some.inj hc
      subst hdc
      rw [if_pos hd, h]
      have : updAt w x g = w := updAt_id_of_not_mem w x g (by rw [← hd]; exact hnd.1)
      simp only [updAt] at this
      rw [this]
    · rw [if_neg hd]
      have hc' : cityAt? w x = some c := by
        simp only [cityAt?] at hc ⊢
        rwa [List.find?_cons_of_neg _ (by simpa using hd)] at hc
      rw [ih hnd.2 hc']

theorem namesOf_updAt (w : List City) (x : String) (g : City → City)
    (hg : ∀ c, (g c).name = c.name) : namesOf (updAt w x g) = namesOf w := by
  induction w with
  | nil => rfl
  | cons c w ih =>
    simp only [updAt, namesOf, List.map_cons] at ih ⊢
    rw [ih]
    by_cases hc : c.name = x
    · rw [if_pos hc, hg]
    · rw [if_neg hc]

theorem skeleton_updAt (w : List City) (x : String) (g : City → City)
    (hg : ∀ c, (g c).name = c.name ∧ (g c).neighbours = c.neighbours) :
    skeleton (updAt w x g) = skeleton w := by
  induction w with
  | nil => rfl
  | cons c w ih =>
    simp only [updAt, skeleton, List.map_cons] at ih ⊢
    rw [ih]
    by_cases hc : c.name = x
    · rw [if_pos hc, (hg c).1, (hg c).2]
    · rw [if_neg hc]

theorem namesOf_eq_of_skeleton_eq {w w' : List City}
    (h : skeleton w' = skeleton w) : namesOf w' = namesOf w := by
  have : (skeleton w').map Prod.fst = (skeleton w).map Prod.fst := by rw [h]
  simpa [skeleton, namesOf, List.map_map, Function.comp] using this

theorem WF_of_skeleton_eq {w w' : List City} (h : skeleton w' = skeleton w)
    (hw : WF w) : WF w' := by
  obtain ⟨hnd, hcl⟩ := hw
  have hn := namesOf_eq_of_skeleton_eq h
  refine ⟨by rwa [hn], ?_⟩
  intro c hc n hnmem
  have : (c.name, c.neighbours) ∈ skeleton w := by
    rw [← h]
    exact List.mem_map_of_mem _ hc
  simp only [skeleton, List.mem_map] at this
  obtain ⟨d, hd, hde⟩ := this
  have h1 : d.neighbours = c.neighbours := congrArg Prod.snd hde
  rw [hn]
  exact hcl d hd n (by rwa [h1])

theorem mul_div_le_of_le (a b c : Nat) (h : b ≤ c) : a * b / c ≤ a := by
  rcases Nat.eq_zero_or_pos c with h0 | h0
  · subst h0; simp
  · calc a * b / c ≤ a * c / c := Nat.div_le_div_right (Nat.mul_le_mul_left a h)
    _ = a := Nat.mul_div_cancel a h0

theorem move_fold_infInc (x : String) (cpn : Nat) (l : List String) :
    ∀ (w : List City) (c : City), (namesOf w).Nodup →
    (∀ n ∈ l, n ∈ namesOf w) → cityAt? w x = some c →
    l.length * cpn ≤ c.infected →
    sumBy infIncCity
      (l.foldl
        (fun w2 nbr =>
          updAt
            (updAt w2 nbr fun cn =>
              { cn with incoming_infected := cn.incoming_infected + cpn })
            x fun cs => { cs with infected := cs.infected - cpn })
        w) = sumBy infIncCity w := by
  induction l with
  | nil => intro w c _ _ _ _; rfl
  | cons n rest ih =>
    intro w c hnd hmem hc hle
    simp only [List.foldl_cons]
    simp only [List.length_cons] at hle
    have hcpn : cpn ≤ c.infected := by
      have : cpn ≤ (rest.length + 1) * cpn := by
        have := Nat.le_mul_of_pos_left cpn (Nat.succ_pos rest.length)
        simpa using this
      omega
    have hgn : ∀ cc : City,
        ((fun cn : City =>
          { cn with incoming_infected := cn.incoming_infected + cpn }) cc).name =
          cc.name := fun _ => rfl
    have hgd : ∀ cc : City,
        ((fun cs : City => { cs with infected := cs.infected - cpn }) cc).name =
          cc.name := fun _ => rfl
    set c1 : City :=
      if c.name = n then { c with incoming_infected := c.incoming_infected + cpn }
      else c with hc1def
    have hc1inf : c1.infected = c.infected := by
      rw [hc1def]
      by_cases h : c.name = n <;> simp [h]
    have hc1name : c1.name = c.name := by
      rw [hc1def]
      by_cases h : c.name = n <;> simp [h]
    have hA : sumBy infIncCity
        (updAt w n fun cn =>
          { cn with incoming_infected := cn.incoming_infected + cpn }) =
        sumBy infIncCity w + cpn := by
      apply sumBy_updAt_add _ _ _ _ _ _ hnd (hmem n (List.mem_cons_self n rest))
      intro cc
      simp only [infIncCity]
      omega
    have hnames1 : namesOf
        (updAt w n fun cn =>
          { cn with incoming_infected := cn.incoming_infected + cpn }) =
        namesOf w := namesOf_updAt _ _ _ hgn
    have hB : cityAt?
        (updAt w n fun cn =>
          { cn with incoming_infected := cn.incoming_infected + cpn }) x =
        some c1 := by
      rw [cityAt?_updAt _ hgn, hc]
      rfl
    have hC : sumBy infIncCity
        (updAt
          (updAt w n fun cn =>
            { cn with incoming_infected := cn.incoming_infected + cpn })
          x fun cs => { cs with infected := cs.infected - cpn }) + cpn =
        sumBy infIncCity
          (updAt w n fun cn =>
            { cn with incoming_infected := cn.incoming_infected + cpn }) := by
      apply sumBy_updAt_found_cancel _ _ _ _ _ _ (by rwa [hnames1]) hB
      show c1.infected - cpn + c1.incoming_infected + cpn = c1.infected + c1.incoming_infected
      rw [hc1inf]
      omega
    have hnames2 : namesOf
        (updAt
          (updAt w n fun cn =>
            { cn with incoming_infected := cn.incoming_infected + cpn })
          x fun cs => { cs with infected := cs.infected - cpn }) = namesOf w := by
      rw [namesOf_updAt _ _ _ hgd, hnames1]
    have hD : cityAt?
        (updAt
          (updAt w n fun cn =>
            { cn with incoming_infected := cn.incoming_infected + cpn })
          x fun cs => { cs with infected := cs.infected - cpn }) x =
        some { c1 with infected := c1.infected - cpn } := by
      rw [cityAt?_updAt _ hgd, hB]
      have : c1.name = x := by rw [hc1name]; exact (cityAt?_mem hc).2
      simp [this]
    rw [ih _ _ (by rwa [hnames2])
      (fun m hm => by rw [hnames2]; exact hmem m (List.mem_cons_of_mem n hm)) hD
      (by show rest.length * cpn ≤ c1.infected - cpn
          rw [hc1inf]
          have hx : rest.length * cpn + cpn = (rest.length + 1) * cpn := by ring
          omega)]
    omega

theorem move_fold_rest (x : String) (cpn : Nat) (l : List String) :
    ∀ (w : List City),
    sumBy restCity
      (l.foldl
        (fun w2 nbr =>
          updAt
            (updAt w2 nbr fun cn =>
              { cn with incoming_infected := cn.incoming_infected + cpn })
            x fun cs => { cs with infected := cs.infected - cpn })
        w) = sumBy restCity w := by
  induction l with
  | nil => intro w; rfl
  | cons n rest ih =>
    intro w
    simp only [List.foldl_cons]
    rw [ih, sumBy_updAt_pres _ _ _ _ (fun cc => by simp [restCity]),
      sumBy_updAt_pres _ _ _ _ (fun cc => by simp [restCity])]

theorem move_fold_skeleton (x : String) (cpn : Nat) (l : List String) :
    ∀ (w : List City),
    skeleton
      (l.foldl
        (fun w2 nbr =>
          updAt
            (updAt w2 nbr fun cn =>
              { cn with incoming_infected := cn.incoming_infected + cpn })
            x fun cs => { cs with infected := cs.infected - cpn })
        w) = skeleton w := by
  induction l with
  | nil => intro w; rfl
  | cons n rest ih =>
    intro w
    simp only [List.foldl_cons]
    rw [ih, skeleton_updAt _ _ _ (fun cc => by exact ⟨rfl, rfl⟩),
      skeleton_updAt _ _ _ (fun cc => by exact ⟨rfl, rfl⟩)]

theorem move_infected_infInc (p : Params) (w : List City) (x : String)
    (hWF : WF w) (hmn : p.movementNum ≤ p.movementDen) :
    totalInfectedInTransit (City.move_infected p w x) =
      totalInfectedInTransit w := by
  unfold totalInfectedInTransit City.move_infected
  cases hcc : cityAt? w x with
  | none => rfl
  | some c =>
    by_cases hlen : c.neighbours.length = 0
    · simp [hlen]
    · simp only [hlen, if_false]
      apply move_fold_infInc x _ c.neighbours w c hWF.1
        (fun n hn => hWF.2 c (cityAt?_mem hcc).1 n hn) hcc
      have h1 : c.infected * p.movementNum / p.movementDen ≤ c.infected :=
        mul_div_le_of_le _ _ _ hmn
      have h2 : c.neighbours.length *
          (c.infected * p.movementNum / p.movementDen / c.neighbours.length) ≤
          c.infected * p.movementNum / p.movementDen := by
        rw [Nat.mul_comm]
        exact Nat.div_mul_le_self _ _
      omega

theorem move_infected_rest (p : Params) (w : List City) (x : String) :
    sumBy restCity (City.move_infected p w x) = sumBy restCity w := by
  unfold City.move_infected
  cases hcc : cityAt? w x with
  | none => rfl
  | some c =>
    by_cases hlen : c.neighbours.length = 0
    · simp [hlen]
    · simp only [hlen, if_false]
      exact move_fold_rest x _ c.neighbours w

theorem move_infected_skeleton (p : Params) (w : List City) (x : String) :
    skeleton (City.move_infected p w x) = skeleton w := by
  unfold City.move_infected
  cases hcc : cityAt? w x with
  | none => rfl
  | some c =>
    by_cases hlen : c.neighbours.length = 0
    · simp [hlen]
    · simp only [hlen, if_false]
      exact move_fold_skeleton x _ c.neighbours w

theorem sumBy_totalCity_split (w : List City) :
    sumBy totalCity w = sumBy infIncCity w + sumBy restCity w := by
  induction w with
  | nil => rfl
  | cons c w ih =>
    simp only [sumBy, List.map_cons, List.sum_cons] at ih ⊢
    simp only [totalCity, infIncCity, restCity] at ih ⊢
    omega

theorem move_infected_total (p : Params) (w : List City) (x : String)
    (hWF : WF w) (hmn : p.movementNum ≤ p.movementDen) :
    sumBy totalCity (City.move_infected p w x) = sumBy totalCity w := by
  rw [sumBy_totalCity_split, sumBy_totalCity_split, move_infected_rest]
  have := move_infected_infInc p w x hWF hmn
  unfold totalInfectedInTransit at this
  rw [this]

theorem totalCity_start (c : City) :
    totalCity (City.start_of_turn c) = totalCity c := by
  simp only [totalCity, City.start_of_turn]
  omega

theorem cases_resolved_le (p : Params) (inf : Nat)
    (h3 : p.durationDen ≤ p.durationNum) : cases_resolved p inf ≤ inf := by
  unfold cases_resolved
  split_ifs with h5 h0
  · exact max_le (mul_div_le_of_le _ _ _ h3) (by omega)
  · exact le_refl _
  · exact Nat.zero_le _

theorem totalCity_change (p : Params) (c : City)
    (h2 : p.mortalityNum ≤ p.mortalityDen) (h3 : p.durationDen ≤ p.durationNum) :
    totalCity (City.change_in_infected_numbers p c) = totalCity c := by
  have hr : cases_resolved p c.infected ≤ c.infected := cases_resolved_le p _ h3
  have hd : cases_resolved p c.infected * p.mortalityNum / p.mortalityDen ≤
      cases_resolved p c.infected := mul_div_le_of_le _ _ _ h2
  simp only [totalCity, City.change_in_infected_numbers]
  omega

theorem totalCity_spread_core (p : Params) (c : City) :
    totalCity (spread_core p c) = totalCity c := by
  simp only [totalCity, spread_core]
  split_ifs with h1 h2 h3
  · simp
    omega
  · simp
    omega
  · rfl
  · rfl

theorem totalCity_spread_ext (p : Params) (c : City)
    (h2 : p.mortalityNum ≤ p.mortalityDen) :
    totalCity (spread_ext p c) = totalCity c := by
  have hd : c.infected * p.mortalityNum / p.mortalityDen ≤ c.infected :=
    mul_div_le_of_le _ _ _ h2
  simp only [totalCity, spread_ext]
  split_ifs with h1
  · simp
    omega
  · rfl

theorem totalCity_spread (p : Params) (c : City)
    (h2 : p.mortalityNum ≤ p.mortalityDen) :
    totalCity (City.spread_infection p c) = totalCity c := by
  unfold City.spread_infection
  rw [totalCity_spread_ext p _ h2, totalCity_spread_core]

theorem totalCity_latch (c : City) : totalCity (log_latch c) = totalCity c := by
  unfold log_latch City.first_case
  split_ifs <;> rfl

theorem latch_name_nbrs (c : City) :
    (log_latch c).name = c.name ∧ (log_latch c).neighbours = c.neighbours := by
  unfold log_latch City.first_case
  split_ifs <;> exact ⟨rfl, rfl⟩

theorem change_name_nbrs (p : Params) (c : City) :
    (City.change_in_infected_numbers p c).name = c.name ∧
      (City.change_in_infected_numbers p c).neighbours = c.neighbours := by
  exact ⟨rfl, rfl⟩

theorem spread_core_name_nbrs (p : Params) (c : City) :
    (spread_core p c).name = c.name ∧
      (spread_core p c).neighbours = c.neighbours := by
  simp only [spread_core]
  split_ifs <;> exact ⟨rfl, rfl⟩

theorem spread_ext_name_nbrs (p : Params) (c : City) :
    (spread_ext p c).name = c.name ∧
      (spread_ext p c).neighbours = c.neighbours := by
  simp only [spread_ext]
  split_ifs <;> exact ⟨rfl, rfl⟩

theorem spread_name_nbrs (p : Params) (c : City) :
    (City.spread_infection p c).name = c.name ∧
      (City.spread_infection p c).neighbours = c.neighbours := by
  unfold City.spread_infection
  rw [(spread_ext_name_nbrs p _).1, (spread_ext_name_nbrs p _).2,
    (spread_core_name_nbrs p c).1, (spread_core_name_nbrs p c).2]
  exact ⟨rfl, rfl⟩

theorem city_run_turn_total (p : Params) (w : List City) (x : String)
    (hWF : WF w) (h1 : p.movementNum ≤ p.movementDen)
    (h2 : p.mortalityNum ≤ p.mortalityDen) (h3 : p.durationDen ≤ p.durationNum) :
    sumBy totalCity (City.run_turn p w x) = sumBy totalCity w := by
  unfold City.run_turn
  rw [sumBy_updAt_pres _ _ _ _ (fun c => totalCity_spread p c h2),
    sumBy_updAt_pres _ _ _ _ (fun c => totalCity_change p c h2 h3),
    move_infected_total p w x hWF h1]

theorem city_run_turn_skeleton (p : Params) (w : List City) (x : String) :
    skeleton (City.run_turn p w x) = skeleton w := by
  unfold City.run_turn
  rw [skeleton_updAt _ _ _ (spread_name_nbrs p),
    skeleton_updAt _ _ _ (change_name_nbrs p), move_infected_skeleton]

theorem cityTurnAt_total (p : Params) (b : Bool) (w : List City) (x : String)
    (hWF : WF w) (h1 : p.movementNum ≤ p.movementDen)
    (h2 : p.mortalityNum ≤ p.mortalityDen) (h3 : p.durationDen ≤ p.durationNum) :
    sumBy totalCity (cityTurnAt p b w x) = sumBy totalCity w := by
  unfold cityTurnAt
  split_ifs with hb
  · rw [sumBy_updAt_pres _ _ _ _ totalCity_latch,
      city_run_turn_total p w x hWF h1 h2 h3]
  · exact city_run_turn_total p w x hWF h1 h2 h3

theorem cityTurnAt_skeleton (p : Params) (b : Bool) (w : List City) (x : String) :
    skeleton (cityTurnAt p b w x) = skeleton w := by
  unfold cityTurnAt
  split_ifs with hb
  · rw [skeleton_updAt _ _ _ latch_name_nbrs, city_run_turn_skeleton]
  · exact city_run_turn_skeleton p w x

theorem cityTurn_fold_total (p : Params) (b : Bool) (l : List String) :
    ∀ (w : List City), WF w → (h1 : p.movementNum ≤ p.movementDen) →
    (h2 : p.mortalityNum ≤ p.mortalityDen) →
    (h3 : p.durationDen ≤ p.durationNum) →
    sumBy totalCity (l.foldl (cityTurnAt p b) w) = sumBy totalCity w ∧
      skeleton (l.foldl (cityTurnAt p b) w) = skeleton w := by
  induction l with
  | nil => intro w _ _ _ _; exact ⟨rfl, rfl⟩
  | cons n rest ih =>
    intro w hWF h1 h2 h3
    simp only [List.foldl_cons]
    have hsk : skeleton (cityTurnAt p b w n) = skeleton w :=
      cityTurnAt_skeleton p b w n
    have hWF' : WF (cityTurnAt p b w n) := WF_of_skeleton_eq hsk hWF
    obtain ⟨hsum, hske⟩ := ih (cityTurnAt p b w n) hWF' h1 h2 h3
    exact ⟨by rw [hsum, cityTurnAt_total p b w n hWF h1 h2 h3],
      by rw [hske, hsk]⟩

theorem treatment_run_turn_total (p : Params) (w : List City)
    (t : TreatmentCentre) (hnd : (namesOf w).Nodup) :
    sumBy totalCity (TreatmentCentre.run_turn p w t).1 = sumBy totalCity w := by
  simp only [TreatmentCentre.run_turn]
  split
  · rfl
  · rename_i c hcc
    split_ifs with hmv hib hib2
    · apply sumBy_updAt_pres
      intro cc
      simp only [totalCity]
      omega
    · rw [if_pos hmv] at hcc
      have h0 := sumBy_updAt_found_cancel totalCity
        (fun cc =>
          { cc with
            cured := cc.cured + (TreatmentCentre.move w t).treatment_remaining,
            infected := cc.infected - (TreatmentCentre.move w t).treatment_remaining })
        w (TreatmentCentre.move w t).city 0 c hnd hcc
        (by simp only [totalCity]; omega)
      simpa using h0
    · apply sumBy_updAt_pres
      intro cc
      simp only [totalCity]
      omega
    · rw [if_neg hmv] at hcc
      have h0 := sumBy_updAt_found_cancel totalCity
        (fun cc =>
          { cc with
            cured := cc.cured + t.treatment_remaining,
            infected := cc.infected - t.treatment_remaining })
        w t.city 0 c hnd hcc
        (by simp only [totalCity]; omega)
      simpa using h0

theorem treatment_run_turn_skeleton (p : Params) (w : List City)
    (t : TreatmentCentre) :
    skeleton (TreatmentCentre.run_turn p w t).1 = skeleton w := by
  simp only [TreatmentCentre.run_turn]
  split
  · rfl
  · rename_i c hcc
    split_ifs
    all_goals exact skeleton_updAt _ _ _ (fun cc => by exact ⟨rfl, rfl⟩)

theorem runTreatments_total (p : Params) (ts : List TreatmentCentre) :
    ∀ (w : List City), (namesOf w).Nodup →
    sumBy totalCity (runTreatments p ts w).1 = sumBy totalCity w ∧
      skeleton (runTreatments p ts w).1 = skeleton w := by
  induction ts with
  | nil => intro w _; exact ⟨rfl, rfl⟩
  | cons t ts ih =>
    intro w hnd
    simp only [runTreatments]
    have hsk : skeleton (TreatmentCentre.run_turn p w t).1 = skeleton w :=
      treatment_run_turn_skeleton p w t
    have hnd' : (namesOf (TreatmentCentre.run_turn p w t).1).Nodup := by
      rw [namesOf_eq_of_skeleton_eq hsk]; exact hnd
    obtain ⟨hsum, hske⟩ := ih (TreatmentCentre.run_turn p w t).1 hnd'
    exact ⟨by rw [hsum, treatment_run_turn_total p w t hnd],
      by rw [hske, hsk]⟩

theorem start_map_total (w : List City) :
    sumBy totalCity (w.map City.start_of_turn) = sumBy totalCity w :=
  sumBy_map_pres _ _ totalCity_start w

theorem start_map_skeleton (w : List City) :
    skeleton (w.map City.start_of_turn) = skeleton w := by
  unfold skeleton
  rw [List.map_map]
  rfl

theorem engine_run_turn_total (p : Params) (e : Engine) (hWF : WF e.cities)
    (h1 : p.movementNum ≤ p.movementDen) (h2 : p.mortalityNum ≤ p.mortalityDen)
    (h3 : p.durationDen ≤ p.durationNum) :
    sumBy totalCity (Engine.run_turn p e).cities = sumBy totalCity e.cities := by
  unfold Engine.run_turn
  have hsk1 : skeleton (e.cities.map City.start_of_turn) = skeleton e.cities :=
    start_map_skeleton e.cities
  have hWF1 : WF (e.cities.map City.start_of_turn) := WF_of_skeleton_eq hsk1 hWF
  obtain ⟨hsum2, hsk2⟩ := cityTurn_fold_total p e.loggerPresent
    (namesOf (e.cities.map City.start_of_turn)) (e.cities.map City.start_of_turn)
    hWF1 h1 h2 h3
  have hnd2 : (namesOf ((namesOf (e.cities.map City.start_of_turn)).foldl
      (cityTurnAt p e.loggerPresent) (e.cities.map City.start_of_turn))).Nodup := by
    rw [namesOf_eq_of_skeleton_eq hsk2, namesOf_eq_of_skeleton_eq hsk1]
    exact hWF.1
  obtain ⟨hsum3, _⟩ := runTreatments_total p e.treatments
    ((namesOf (e.cities.map City.start_of_turn)).foldl
      (cityTurnAt p e.loggerPresent) (e.cities.map City.start_of_turn)) hnd2
  rw [hsum3, hsum2, start_map_total]

theorem getD_snoc_lt {α : Type} (l : List α) (a d : α) (k : Nat)
    (h : k < l.length) : (l ++ [a]).getD k d = l.getD k d := by
  simp [List.getD_eq_getElem?_getD, List.getElem?_append_left h]

theorem getD_snoc_eq {α : Type} (l : List α) (a d : α) :
    (l ++ [a]).getD l.length d = a := by
  simp [List.getD_eq_getElem?_getD,
    List.getElem?_append_right (le_refl l.length)]

theorem getD_snoc_eq_of_len {α : Type} (l : List α) (a d : α) (k : Nat)
    (h : l.length = k) : (l ++ [a]).getD k d = a := by
  subst h
  exact getD_snoc_eq l a d

theorem engine_lists_append (p : Params) (e : Engine) :
    (Engine.run_turn p e).infected =
      e.infected ++ [sumBy (fun c => c.infected) (Engine.run_turn p e).cities] ∧
    (Engine.run_turn p e).healthy_population =
      e.healthy_population ++
        [sumBy (fun c => c.healthy_population) (Engine.run_turn p e).cities] ∧
    (Engine.run_turn p e).survivors =
      e.survivors ++ [sumBy (fun c => c.survivors) (Engine.run_turn p e).cities] ∧
    (Engine.run_turn p e).deaths =
      e.deaths ++ [sumBy (fun c => c.dead) (Engine.run_turn p e).cities] ∧
    (Engine.run_turn p e).cured =
      e.cured ++ [sumBy (fun c => c.cured) (Engine.run_turn p e).cities] :=
  ⟨rfl, rfl, rfl, rfl, rfl⟩

theorem engine_iterate_len (p : Params) (e : Engine) (n : Nat) :
    ((Engine.run_turn p)^[n] e).infected.length = e.infected.length + n ∧
    ((Engine.run_turn p)^[n] e).healthy_population.length =
      e.healthy_population.length + n ∧
    ((Engine.run_turn p)^[n] e).survivors.length = e.survivors.length + n ∧
    ((Engine.run_turn p)^[n] e).deaths.length = e.deaths.length + n ∧
    ((Engine.run_turn p)^[n] e).cured.length = e.cured.length + n := by
  induction n with
  | zero => simp
  | succ m ih =>
    obtain ⟨h1, h2, h3, h4, h5⟩ := ih
    rw [Function.iterate_succ_apply']
    obtain ⟨g1, g2, g3, g4, g5⟩ :=
      engine_lists_append p ((Engine.run_turn p)^[m] e)
    rw [g1, g2, g3, g4, g5]
    simp only [List.length_append, List.length_singleton, h1, h2, h3, h4, h5]
    omega

theorem engine_iterate_entry (p : Params) (e : Engine)
    (he : e.infected = [] ∧ e.healthy_population = [] ∧ e.survivors = [] ∧
      e.deaths = [] ∧ e.cured = []) (n : Nat) :
    ∀ k, k < n →
    ((Engine.run_turn p)^[n] e).infected.getD k 0 =
      sumBy (fun c => c.infected) (((Engine.run_turn p)^[k + 1] e).cities) ∧
    ((Engine.run_turn p)^[n] e).healthy_population.getD k 0 =
      sumBy (fun c => c.healthy_population) (((Engine.run_turn p)^[k + 1] e).cities) ∧
    ((Engine.run_turn p)^[n] e).survivors.getD k 0 =
      sumBy (fun c => c.survivors) (((Engine.run_turn p)^[k + 1] e).cities) ∧
    ((Engine.run_turn p)^[n] e).deaths.getD k 0 =
      sumBy (fun c => c.dead) (((Engine.run_turn p)^[k + 1] e).cities) ∧
    ((Engine.run_turn p)^[n] e).cured.getD k 0 =
      sumBy (fun c => c.cured) (((Engine.run_turn p)^[k + 1] e).cities) := by
  obtain ⟨e1, e2, e3, e4, e5⟩ := he
  induction n with
  | zero => intro k hk; omega
  | succ m ih =>
    intro k hk
    obtain ⟨l1, l2, l3, l4, l5⟩ := engine_iterate_len p e m
    rw [e1] at l1; rw [e2] at l2; rw [e3] at l3; rw [e4] at l4; rw [e5] at l5
    simp only [List.length_nil, Nat.zero_add] at l1 l2 l3 l4 l5
    rw [Function.iterate_succ_apply']
    obtain ⟨g1, g2, g3, g4, g5⟩ :=
      engine_lists_append p ((Engine.run_turn p)^[m] e)
    rw [g1, g2, g3, g4, g5]
    rcases Nat.lt_or_ge k m with hkm | hkm
    · obtain ⟨i1, i2, i3, i4, i5⟩ := ih k hkm
      rw [getD_snoc_lt _ _ _ _ (by omega), getD_snoc_lt _ _ _ _ (by omega),
        getD_snoc_lt _ _ _ _ (by omega), getD_snoc_lt _ _ _ _ (by omega),
        getD_snoc_lt _ _ _ _ (by omega)]
      exact ⟨i1, i2, i3, i4, i5⟩
    · have hkeq : k = m := by omega
      subst hkeq
      rw [getD_snoc_eq_of_len _ _ _ _ l1, getD_snoc_eq_of_len _ _ _ _ l2,
        getD_snoc_eq_of_len _ _ _ _ l3, getD_snoc_eq_of_len _ _ _ _ l4,
        getD_snoc_eq_of_len _ _ _ _ l5]
      rw [Function.iterate_succ_apply' (Engine.run_turn p) k e]
      exact ⟨rfl, rfl, rfl, rfl, rfl⟩

theorem firstCaseRun_latched (obs : List Nat) :
    ∀ (c : City), c.ever_infected = true →
    firstCaseRun c obs = List.replicate obs.length false := by
  induction obs with
  | nil => intro c _; rfl
  | cons o rest ih =>
    intro c hc
    simp only [firstCaseRun, City.first_case]
    rw [if_neg (by simp [hc])]
    simp only [List.length_cons, List.replicate_succ]
    exact congrArg (List.cons false) (ih _ hc)

theorem add_neighbour_name (c : City) (x : String) :
    (City.add_neighbour c x).name = c.name := by
  unfold City.add_neighbour
  split_ifs <;> rfl

theorem mem_add_neighbour (c : City) (x m : String) :
    m ∈ (City.add_neighbour c x).neighbours ↔ m ∈ c.neighbours ∨ m = x := by
  unfold City.add_neighbour
  split_ifs with h
  · constructor
    · exact fun hm => Or.inl hm
    · rintro (hm | hm)
      · exact hm
      · rwa [hm]
  · simp [List.mem_append]

theorem mem_add_step (c : City) (x y m : String) :
    m ∈ (if c.name = x then City.add_neighbour c y else c).neighbours ↔
      m ∈ c.neighbours ∨ (c.name = x ∧ m = y) := by
  split_ifs with h
  · rw [mem_add_neighbour]
    constructor
    · rintro (hm | hm)
      · exact Or.inl hm
      · exact Or.inr ⟨h, hm⟩
    · rintro (hm | ⟨_, hm⟩)
      · exact Or.inl hm
      · exact Or.inr hm
  · constructor
    · exact fun hm => Or.inl hm
    · rintro (hm | ⟨hx, _⟩)
      · exact hm
      · exact absurd hx h

theorem add_step_name (c : City) (x y : String) :
    (if c.name = x then City.add_neighbour c y else c).name = c.name := by
  split_ifs with h
  · exact add_neighbour_name c y
  · rfl

theorem getD_replicate_self {α : Type} (a : α) (n : Nat) :
    ∀ i, (List.replicate n a).getD i a = a := by
  induction n with
  | zero => intro i; simp
  | succ m ih =>
    intro i
    cases i with
    | zero => simp [List.replicate_succ]
    | succ i' => simp only [List.replicate_succ, List.getD_cons_succ]; exact ih i'

theorem add_step2_name (c : City) (a b : String) :
    (if (if c.name = a then City.add_neighbour c b else c).name = b
     then City.add_neighbour (if c.name = a then City.add_neighbour c b else c) a
     else (if c.name = a then City.add_neighbour c b else c)).name = c.name := by
  rw [add_step_name (if c.name = a then City.add_neighbour c b else c) b a,
    add_step_name c a b]

theorem mem_add_step2 (c : City) (a b m : String) :
    m ∈ (if (if c.name = a then City.add_neighbour c b else c).name = b
     then City.add_neighbour (if c.name = a then City.add_neighbour c b else c) a
     else (if c.name = a then City.add_neighbour c b else c)).neighbours ↔
      (m ∈ c.neighbours ∨ (c.name = a ∧ m = b)) ∨ (c.name = b ∧ m = a) := by
  rw [mem_add_step (if c.name = a then City.add_neighbour c b else c) b a m,
    mem_add_step c a b m, add_step_name c a b]

/-- Claim C1, counterexample: with movement switched on
(`MOVEMENT_PROPORTION = 0.1`), center A of `moveEngine` starts with
`healthy + infected + survivors + cured + dead = 900 + 100 = 1000 =
initial_population`, yet after one engine turn that five-counter sum is 990:
ten infected moved into B's `incoming_infected` transit buffer, which the
claimed sum does not count, so the per-center equality fails at the end of
the turn. -/
theorem claim_C1_counterexample :
    fieldAt moveEngine.cities "A" fiveCounterSum = 1000 ∧
    fieldAt moveAfter.cities "A" fiveCounterSum = 990 ∧
    fieldAt moveAfter.cities "A" (fun c => c.initial_population) = 1000 := by
  decide

/-- Claim C1 (amended): population is conserved globally and with the
transit buffers counted: for rates in their documented ranges
(`MOVEMENT_PROPORTION ≤ 1`, `MORTALITY_RATE ≤ 1`, `AVERAGE_DURATION ≥ 1`) and
a well-formed graph, one `Engine.run_turn` preserves the sum over all centers
of `healthy_population + infected + incoming_infected + survivors + cured +
dead`.  The per-center sum without `incoming_infected` is not invariant (see
the counterexample): movement transfers people into neighbours' transit
buffers and seeding adds infected without touching `healthy_population`. -/
theorem claim_C1_theorem (p : Params) (e : Engine)
    (h1 : p.movementNum ≤ p.movementDen) (h2 : p.mortalityNum ≤ p.mortalityDen)
    (h3 : p.durationDen ≤ p.durationNum) (hWF : WF e.cities) :
    totalPopulation (Engine.run_turn p e).cities = totalPopulation e.cities :=
  engine_run_turn_total p e hWF h1 h2 h3

/-- Claim C1, witness: the amended conservation theorem applied to the
concrete 2-center engine with movement. -/
theorem claim_C1_witness :
    totalPopulation (Engine.run_turn moveParams moveEngine).cities =
      totalPopulation moveEngine.cities :=
  claim_C1_theorem moveParams moveEngine (by decide) (by decide) (by decide)
    (by decide)

/-- Claim C2: one call of the movement phase `City.move_infected` on any
center preserves the total infected across the graph, counting the
`incoming_infected` transit buffers, for every well-formed graph state and
movement proportion at most 1. -/
theorem claim_C2_theorem (p : Params) (w : List City) (x : String)
    (hWF : WF w) (h1 : p.movementNum ≤ p.movementDen) :
    totalInfectedInTransit (City.move_infected p w x) =
      totalInfectedInTransit w :=
  move_infected_infInc p w x hWF h1

/-- Claim C2, witness: the movement phase on center A of the concrete
2-center world. -/
theorem claim_C2_witness :
    totalInfectedInTransit (City.move_infected moveParams moveEngine.cities "A") =
      totalInfectedInTransit moveEngine.cities :=
  claim_C2_theorem moveParams moveEngine.cities "A" (by decide) (by decide)

/-- Claim C3, counterexample: `remove_neighbour` is one-sided.  Starting from
the symmetric pair A↔B, the single call `A.remove_neighbour(B)` leaves A in
B's neighbour set while B is no longer in A's, so the claimed symmetry
("after any add/remove operation") fails. -/
theorem claim_C3_counterexample :
    City.remove_neighbour pairA "B" = some pairA' ∧
    "A" ∈ pairB.neighbours ∧ "B" ∉ pairA'.neighbours := by
  decide

/-- Claim C3 (amended): `add_neighbour` and `remove_neighbour` each modify
only the city they are called on, so symmetry of the neighbour relation is
preserved exactly when the operation is applied to both members of the pair —
as `get_city_data` does for adds (first conjunct) — while a one-sided
`remove_neighbour` call (as in `find_best_config` and the `__main__` closure
loop) changes only the called city's set (second conjunct) and therefore
breaks symmetry of a connected pair until it is restored. -/
theorem claim_C3_theorem (w : List City) (a b : String)
    (hs : SymmetricGraph w) :
    SymmetricGraph (addNbrAt (addNbrAt w a b) b a) ∧
    ∀ y, y ≠ a →
      getNeighboursAt (removeNbrAt w a b) y = getNeighboursAt w y := by
  constructor
  · intro c2 hc2 n hn c2' hc2' hname
    simp only [addNbrAt, updAt, List.mem_map] at hc2 hc2'
    obtain ⟨c1, hc1, hc2eq⟩ := hc2
    obtain ⟨c, hcw, hc1eq⟩ := hc1
    obtain ⟨c1', hc1', hc2eq'⟩ := hc2'
    obtain ⟨c', hcw', hc1eq'⟩ := hc1'
    subst hc2eq; subst hc1eq; subst hc2eq'; subst hc1eq'
    rw [mem_add_step2 c a b n] at hn
    rw [add_step2_name c' a b] at hname
    rw [add_step2_name c a b, mem_add_step2 c' a b c.name]
    rcases hn with (hn | ⟨hca, hnb⟩) | ⟨hcb, hna⟩
    · exact Or.inl (Or.inl (hs c hcw n hn c' hcw' hname))
    · exact Or.inr ⟨hname.trans hnb, hca⟩
    · exact Or.inl (Or.inr ⟨hname.trans hna, hcb⟩)
  · intro y hy
    unfold getNeighboursAt removeNbrAt
    rw [cityAt?_updAt _ (fun cc => by exact rfl)]
    cases hcy : cityAt? w y with
    | none => rfl
    | some c =>
      have hcn : c.name = y := (cityAt?_mem hcy).2
      show (if c.name = a then
        ({ c with neighbours := c.neighbours.erase b } : City) else c).neighbours =
          c.neighbours
      rw [if_neg (by rw [hcn]; exact hy)]

/-- Claim C3, witness: the amended theorem applied to the concrete symmetric
pair world. -/
theorem claim_C3_witness :
    SymmetricGraph (addNbrAt (addNbrAt pairWorld "A" "B") "B" "A") ∧
    getNeighboursAt (removeNbrAt pairWorld "A" "B") "B" =
      getNeighboursAt pairWorld "B" :=
  ⟨(claim_C3_theorem pairWorld "A" "B" (by decide)).1,
   (claim_C3_theorem pairWorld "A" "B" (by decide)).2 "B" (by decide)⟩

/-- Claim C4, counterexample: removing a connection that does not exist is
not a no-op — `set.remove` raises `KeyError` (modelled as `none`), so
`remove_neighbour` on an absent neighbour fails instead of leaving the state
unchanged. -/
theorem claim_C4_counterexample :
    "Z" ∉ pairA.neighbours ∧ City.remove_neighbour pairA "Z" = none := by
  decide

/-- Claim C4 (amended): adding a neighbour already in the set is a no-op (the
underlying `set.add` is idempotent), but removing a neighbour that is not in
the set raises `KeyError` (returns `none`) rather than being a no-op. -/
theorem claim_C4_theorem (c : City) (n : String) :
    (n ∈ c.neighbours → City.add_neighbour c n = c) ∧
    (n ∉ c.neighbours → City.remove_neighbour c n = none) := by
  constructor
  · intro h
    unfold City.add_neighbour
    rw [if_pos h]
  · intro h
    unfold City.remove_neighbour
    rw [if_neg h]

/-- Claim C4, witness: the amended theorem at concrete inputs. -/
theorem claim_C4_witness :
    City.add_neighbour pairA "B" = pairA ∧
    City.remove_neighbour pairA "Q" = none :=
  ⟨(claim_C4_theorem pairA "B").1 (by decide),
   (claim_C4_theorem pairA "Q").2 (by decide)⟩

/-- Claim C5: the end-to-end example.  Two centers A↔B with population 1000
each, 100 infected seeded at A, `INFECTION_RATE = 0`,
`MOVEMENT_PROPORTION = 0`, `AVERAGE_DURATION = 4`, `MORTALITY_RATE = 0.5`, no
treatment units: after one engine turn A has `infected = 75`,
`survivors = 13`, `dead = 12`, and B is exactly unchanged (in particular
`infected = 0`). -/
theorem claim_C5_theorem :
    fieldAt exampleAfter.cities "A" (fun c => c.infected) = 75 ∧
    fieldAt exampleAfter.cities "A" (fun c => c.survivors) = 13 ∧
    fieldAt exampleAfter.cities "A" (fun c => c.dead) = 12 ∧
    cityAt? exampleAfter.cities "B" = some exampleB := by
  decide

/-- Claim C6: removing a connection and re-adding it is an exact round trip
on the neighbour set (as a set): for any city with `b` currently a
neighbour, `remove_neighbour(b)` succeeds and a following `add_neighbour(b)`
restores a neighbour set with exactly the original members — which is why
each nesting level of `find_best_config` restores the adjacency it removed
before continuing the enumeration. -/
theorem claim_C6_theorem (c : City) (b : String) (hb : b ∈ c.neighbours) :
    ∃ c', City.remove_neighbour c b = some c' ∧
      (City.add_neighbour c' b).name = c.name ∧
      ∀ n, n ∈ (City.add_neighbour c' b).neighbours ↔ n ∈ c.neighbours := by
  refine ⟨{ c with neighbours := c.neighbours.erase b }, ?_, ?_, ?_⟩
  · unfold City.remove_neighbour
    rw [if_pos hb]
  · exact add_neighbour_name _ b
  · intro n
    rw [mem_add_neighbour]
    show n ∈ c.neighbours.erase b ∨ n = b ↔ n ∈ c.neighbours
    by_cases hnb : n = b
    · subst hnb
      simp [hb]
    · rw [List.mem_erase_of_ne hnb]
      constructor
      · rintro (hm | hm)
        · exact hm
        · exact absurd hm hnb
      · exact fun hm => Or.inl hm

/-- Claim C6, witness: the round trip on the concrete pair A↔B. -/
theorem claim_C6_witness :
    ∃ c', City.remove_neighbour pairA "B" = some c' ∧
      (City.add_neighbour c' "B").name = pairA.name ∧
      ∀ n, n ∈ (City.add_neighbour c' "B").neighbours ↔ n ∈ pairA.neighbours :=
  claim_C6_theorem pairA "B" (by decide)

theorem move_rem (w : List City) (t : TreatmentCentre) :
    (TreatmentCentre.move w t).treatment_remaining = t.treatment_remaining := by
  simp only [TreatmentCentre.move]
  split_ifs <;> rfl

theorem cure_spec (w : List City) (t1 : TreatmentCentre) (c : City)
    (r : List City × TreatmentCentre)
    (hnd : (namesOf w).Nodup) (hc : cityAt? w t1.city = some c)
    (hr : r =
      if c.infected ≤ t1.treatment_remaining then
        (updAt w t1.city fun cc =>
          { cc with cured := cc.cured + cc.infected, infected := 0 },
         { t1 with treatment_remaining := t1.treatment_remaining - c.infected })
      else
        (updAt w t1.city fun cc =>
          { cc with cured := cc.cured + t1.treatment_remaining,
                    infected := cc.infected - t1.treatment_remaining },
         { t1 with treatment_remaining := 0 })) :
    cityAt? r.1 t1.city =
      some { c with
        cured := c.cured + min c.infected t1.treatment_remaining,
        infected := c.infected - min c.infected t1.treatment_remaining } ∧
    r.2.treatment_remaining =
      t1.treatment_remaining - min c.infected t1.treatment_remaining ∧
    (t1.treatment_remaining = 0 → r.1 = w) := by
  subst hr
  split_ifs with hib
  · have hmin : min c.infected t1.treatment_remaining = c.infected :=
      min_eq_left hib
    refine ⟨?_, ?_, ?_⟩
    · show cityAt?
        (updAt w t1.city fun cc =>
          { cc with cured := cc.cured + cc.infected, infected := 0 }) t1.city = _
      rw [cityAt?_updAt _ (fun cc => by exact rfl), hc]
      simp only [Option.map_some']
      rw [if_pos (cityAt?_mem hc).2, hmin, Nat.sub_self]
    · show t1.treatment_remaining - c.infected =
        t1.treatment_remaining - min c.infected t1.treatment_remaining
      rw [hmin]
    · intro h0
      rw [h0] at hib
      have hinf : c.infected = 0 := by omega
      show updAt w t1.city
        (fun cc => { cc with cured := cc.cured + cc.infected, infected := 0 }) = w
      apply updAt_found_id _ _ _ c hnd hc
      cases c
      simp only [] at hinf
      simp [hinf]
  · have hle : t1.treatment_remaining ≤ c.infected := by omega
    have hmin : min c.infected t1.treatment_remaining = t1.treatment_remaining :=
      min_eq_right hle
    refine ⟨?_, ?_, ?_⟩
    · show cityAt?
        (updAt w t1.city fun cc =>
          { cc with cured := cc.cured + t1.treatment_remaining,
                    infected := cc.infected - t1.treatment_remaining }) t1.city = _
      rw [cityAt?_updAt _ (fun cc => by exact rfl), hc]
      simp only [Option.map_some']
      rw [if_pos (cityAt?_mem hc).2, hmin]
    · show (0 : Nat) = t1.treatment_remaining - min c.infected t1.treatment_remaining
      rw [hmin, Nat.sub_self]
    · intro h0
      show updAt w t1.city
        (fun cc =>
          { cc with cured := cc.cured + t1.treatment_remaining,
                    infected := cc.infected - t1.treatment_remaining }) = w
      apply updAt_congr_id
      intro cc
      rw [h0]
      cases cc
      simp

theorem claim_C7_theorem (p : Params) (w : List City) (t t1 : TreatmentCentre)
    (c : City)
    (ht1 : t1 = if p.treatmentMovement then TreatmentCentre.move w t else t)
    (hnd : (namesOf w).Nodup) (hc : cityAt? w t1.city = some c) :
    cityAt? (TreatmentCentre.run_turn p w t).1 t1.city =
      some { c with
        cured := c.cured + min c.infected t.treatment_remaining,
        infected := c.infected - min c.infected t.treatment_remaining } ∧
    (TreatmentCentre.run_turn p w t).2.treatment_remaining =
      t.treatment_remaining - min c.infected t.treatment_remaining ∧
    (t.treatment_remaining = 0 → (TreatmentCentre.run_turn p w t).1 = w) := by
  have hrem : t1.treatment_remaining = t.treatment_remaining := by
    rw [ht1]
    split_ifs with hm
    · exact move_rem w t
    · rfl
  rw [← hrem]
  refine cure_spec w t1 c (TreatmentCentre.run_turn p w t) hnd hc ?_
  subst ht1
  simp only [TreatmentCentre.run_turn]
  rw [hc]

/-- Claim C7, witness: a capacity-3 unit at a city with 5 infected cures
exactly 3 of them. -/
theorem claim_C7_witness :
    cityAt? (TreatmentCentre.run_turn scenario4Params treatWorld treatUnit).1
        treatUnit.city =
      some { treatCity with
        cured := treatCity.cured + min treatCity.infected treatUnit.treatment_remaining,
        infected := treatCity.infected - min treatCity.infected treatUnit.treatment_remaining } ∧
    (TreatmentCentre.run_turn scenario4Params treatWorld treatUnit).2.treatment_remaining =
      treatUnit.treatment_remaining - min treatCity.infected treatUnit.treatment_remaining ∧
    (treatUnit.treatment_remaining = 0 →
      (TreatmentCentre.run_turn scenario4Params treatWorld treatUnit).1 = treatWorld) :=
  claim_C7_theorem scenario4Params treatWorld treatUnit treatUnit treatCity
    (by decide) (by decide) (by decide)

/-- Claim C8: for a freshly constructed engine (all five statistics lists
empty), after `run_turn` has been called `n` times each list has exactly `n`
entries, and entry `k` (0-indexed) of each list equals the sum over all
cities of the corresponding counter immediately after turn `k + 1`'s
updates. -/
theorem claim_C8_theorem (p : Params) (e : Engine)
    (h1 : e.healthy_population = []) (h2 : e.infected = [])
    (h3 : e.survivors = []) (h4 : e.deaths = []) (h5 : e.cured = [])
    (n : Nat) :
    (((Engine.run_turn p)^[n] e).healthy_population.length = n ∧
     ((Engine.run_turn p)^[n] e).infected.length = n ∧
     ((Engine.run_turn p)^[n] e).survivors.length = n ∧
     ((Engine.run_turn p)^[n] e).deaths.length = n ∧
     ((Engine.run_turn p)^[n] e).cured.length = n) ∧
    ∀ k, k < n →
      ((Engine.run_turn p)^[n] e).healthy_population.getD k 0 =
        sumBy (fun c => c.healthy_population)
          (((Engine.run_turn p)^[k + 1] e).cities) ∧
      ((Engine.run_turn p)^[n] e).infected.getD k 0 =
        sumBy (fun c => c.infected) (((Engine.run_turn p)^[k + 1] e).cities) ∧
      ((Engine.run_turn p)^[n] e).survivors.getD k 0 =
        sumBy (fun c => c.survivors) (((Engine.run_turn p)^[k + 1] e).cities) ∧
      ((Engine.run_turn p)^[n] e).deaths.getD k 0 =
        sumBy (fun c => c.dead) (((Engine.run_turn p)^[k + 1] e).cities) ∧
      ((Engine.run_turn p)^[n] e).cured.getD k 0 =
        sumBy (fun c => c.cured) (((Engine.run_turn p)^[k + 1] e).cities) := by
  constructor
  · obtain ⟨l1, l2, l3, l4, l5⟩ := engine_iterate_len p e n
    rw [h2] at l1
    rw [h1] at l2
    rw [h3] at l3
    rw [h4] at l4
    rw [h5] at l5
    simp only [List.length_nil, Nat.zero_add] at l1 l2 l3 l4 l5
    exact ⟨l2, l1, l3, l4, l5⟩
  · intro k hk
    obtain ⟨i1, i2, i3, i4, i5⟩ :=
      engine_iterate_entry p e ⟨h2, h1, h3, h4, h5⟩ n k hk
    exact ⟨i2, i1, i3, i4, i5⟩

/-- Claim C8, witness: the time-series invariant at the concrete 2-center
engine after two turns. -/
theorem claim_C8_witness :
    ((Engine.run_turn exampleParams)^[2] exampleEngine).deaths.length = 2 ∧
    ((Engine.run_turn exampleParams)^[2] exampleEngine).deaths.getD 1 0 =
      sumBy (fun c => c.dead)
        (((Engine.run_turn exampleParams)^[2] exampleEngine).cities) := by
  have h := claim_C8_theorem exampleParams exampleEngine rfl rfl rfl rfl rfl 2
  exact ⟨h.1.2.2.2.1, (h.2 1 (by omega)).2.2.2.1⟩

/-- Claim C9: along any sequence of observed `infected` values without an
intervening reset, `first_case` returns true exactly once — at the first
observation with `infected > 0` (if any) — and false at every other call:
the count of true results is one exactly when some observation is positive,
and position `i` returns true iff observation `i` is positive and all earlier
observations are zero. -/
theorem claim_C9_theorem (c : City) (obs : List Nat)
    (h : c.ever_infected = false) :
    ((firstCaseRun c obs).count true =
      if (obs.any fun o => decide (0 < o)) = true then 1 else 0) ∧
    ∀ i, i < obs.length →
      ((firstCaseRun c obs).getD i false = true ↔
        (0 < obs.getD i 0 ∧ ∀ j, j < i → obs.getD j 0 = 0)) := by
  induction obs generalizing c with
  | nil =>
    refine ⟨by simp [firstCaseRun], ?_⟩
    intro i hi
    simp at hi
  | cons o rest ih =>
    by_cases ho : 0 < o
    · have hrun : firstCaseRun c (o :: rest) =
          true :: List.replicate rest.length false := by
        simp only [firstCaseRun, City.first_case]
        rw [if_pos (by exact ⟨h, ho⟩)]
        exact congrArg (List.cons true) (firstCaseRun_latched rest _ rfl)
      constructor
      · rw [hrun]
        rw [if_pos (by simp [ho])]
        simp [List.count_cons, List.count_replicate]
      · intro i hi
        rw [hrun]
        cases i with
        | zero =>
          simp only [List.getD_cons_zero]
          constructor
          · intro _
            exact ⟨ho, fun j hj => by omega⟩
          · intro _
            trivial
        | succ i' =>
          simp only [List.getD_cons_succ]
          rw [getD_replicate_self]
          constructor
          · intro hcontra
            exact absurd hcontra (by simp)
          · rintro ⟨hpos, hall⟩
            have h0 := hall 0 (by omega)
            simp only [List.getD_cons_zero] at h0
            omega
    · have ho0 : o = 0 := by omega
      have hrun : firstCaseRun c (o :: rest) =
          false :: firstCaseRun { c with infected := o } rest := by
        simp only [firstCaseRun, City.first_case]
        rw [if_neg (fun hcon => ho hcon.2)]
      have ih' := ih { c with infected := o } h
      constructor
      · rw [hrun]
        have hany : ((o :: rest).any fun o => decide (0 < o)) =
            (rest.any fun o => decide (0 < o)) := by
          simp [ho0]
        rw [hany]
        simp only [List.count_cons]
        rw [ih'.1]
        simp
      · intro i hi
        rw [hrun]
        cases i with
        | zero =>
          simp only [List.getD_cons_zero]
          constructor
          · intro hcontra
            exact absurd hcontra (by simp)
          · rintro ⟨hpos, _⟩
            omega
        | succ i' =>
          simp only [List.getD_cons_succ]
          have hi' : i' < rest.length := by
            simp only [List.length_cons] at hi
            omega
          rw [ih'.2 i' hi']
          constructor
          · rintro ⟨hpos, hall⟩
            refine ⟨hpos, ?_⟩
            intro j hj
            cases j with
            | zero => simpa using ho0
            | succ j' =>
              simp only [List.getD_cons_succ]
              exact hall j' (by omega)
          · rintro ⟨hpos, hall⟩
            refine ⟨hpos, ?_⟩
            intro j hj
            have := hall (j + 1) (by omega)
            simpa using this

/-- Claim C9, witness: along the observation sequence 0, 3, 0, 5 (infected,
infection-free, reinfected) a fresh center reports its first case exactly
once. -/
theorem claim_C9_witness :
    (firstCaseRun pairA [0, 3, 0, 5]).count true = 1 := by
  have h := (claim_C9_theorem pairA [0, 3, 0, 5] rfl).1
  rw [if_pos (by decide)] at h
  exact h

set_option maxRecDepth 4000 in
/-- Claim C10: there is an input graph for which the configuration returned
by `find_best_config` removes fewer than three connections.  On `searchWorld`
(hub S connected to leaves T and U, the three scenario-4 seeded cities
isolated so that every trial yields the same death toll and the first trial
in enumeration order wins), the winning triple is
(S, T), (S, U), (T, S): the dict literal keyed by `City` collapses the two
entries with key S — `City` equality and hashing are by name alone — so the
returned mapping has only two entries, and the `__main__` loop applying it
removes fewer than three connections. -/
theorem claim_C10_theorem :
    searchResult.minimum_deaths_config = [("S", "U"), ("T", "S")] ∧
    searchResult.minimum_deaths_config.length < 3 := by
  have h : searchResult.minimum_deaths_config = [("S", "U"), ("T", "S")] := by
    decide
  refine ⟨h, ?_⟩
  rw [h]
  decide
